import Mathlib

/-!
Verification of the user-stream connector in
`hummingbot/market/liquid/liquid_api_user_stream_data_source.py`.

The connector has two pieces:

* `listen_for_user_stream` (the Connection Supervisor): an endless
  `while True` loop; each iteration connects, sends one auth request,
  resolves each configured trading pair to its quote currency, sends one
  subscribe request per pair, then consumes the frame stream.  A
  `CancelledError` is re-raised; any other exception is logged and
  followed by `asyncio.sleep(30.0)` before the next iteration.

* `_inner_messages` (the Heartbeat Monitor): an async generator around
  `ws.recv()`.  A receive timeout triggers a ping; if the pong arrives in
  time the loop continues, if the pong also times out the generator logs
  and returns (it does NOT raise).  A `ConnectionClosed` also makes it
  return.  A `finally` block closes the websocket.

The embedding below is a shallow one: the nondeterministic transport is
replaced by a script (`RecvStep` list per session, `SessionScript` list
per run) and each Python function becomes a pure Lean function over the
script.  Wall-clock readings (`time.time()`) are opaque: no claim depends
on their value, so the timestamp slot of a canonical event is `Unit`.
-/

/-- One decoded inbound frame (the result of `ujson.loads(raw_msg)`).
`event` models `diff_msg.get('event', None)` and `channel` models
`diff_msg.get('channel')`; `body` stands for the rest of the decoded
message, and makes distinct receipts distinguishable. -/
structure Frame where
  event : Option String
  channel : Option String
  body : String
deriving DecidableEq

/-- Modelled from the spec: the Event Decoder
(`LiquidOrderBook.diff_message_from_exchange`, not under `src/`) is the
opaque collaborator `decode(rawBody, timestamp, {tradingPair}) ->
CanonicalEvent`; per section 3 of the spec a Canonical Event is
`{trading_pair, timestamp, payload}`, so it is modelled as the record
keeping its inputs.  The wall-clock receipt timestamp is opaque (`Unit`). -/
structure CanonicalEvent where
  trading_pair : String
  timestamp : Unit
  payload : Frame
deriving DecidableEq

/-- Python `str.upper()` for the ASCII strings this protocol carries,
written by structural recursion over the characters so that proofs can
evaluate it (`String.toUpper` itself does not reduce in the kernel). -/
def upper_string (s : String) : String := String.mk (s.data.map Char.toUpper)

/-- Python `str.lower()` for the ASCII strings this protocol carries,
structurally recursive for the same reason. -/
def lower_string (s : String) : String := String.mk (s.data.map Char.toLower)

/-- Python `channel.split('_')[-1]`: the characters after the last
underscore (the whole string when it has none, empty when it ends in an
underscore), structurally recursive for the same reason. -/
def last_underscore_segment (s : String) : String :=
  String.mk ((s.data.reverse.takeWhile (fun c => c ≠ '_')).reverse)

/-- The uncaught Python exceptions the message-routing code can raise:
`ValueError` for a missing or empty event type (line 101), and
`AttributeError` for `None.split` when an updated frame has no channel
key (line 92). -/
inductive PyError where
  | valueError
  | attributeError
deriving DecidableEq

/-- Result of routing one frame (lines 89 to 101 of the source). -/
inductive RouterOutcome where
  | enqueue (e : CanonicalEvent)
  | skip
  | raiseErr (e : PyError)
deriving DecidableEq

/-- The message router, the body of the `async for` loop (lines 89-101):
`event_type = diff_msg.get('event', None)`; if it equals `'updated'` the
trading pair is `diff_msg.get('channel').split('_')[-1].upper()` (an
`AttributeError` if the channel key is absent) and the decoded event is
enqueued; otherwise `elif not event_type:` raises `ValueError`; any other
event type falls through silently. -/
def classify (msg : Frame) : RouterOutcome :=
  match msg.event with
  | some event_type =>
    if event_type = "updated" then
      match msg.channel with
      | some ch =>
        RouterOutcome.enqueue
          ⟨upper_string (last_underscore_segment ch), (), msg⟩
      | none => RouterOutcome.raiseErr PyError.attributeError
    else if event_type = "" then RouterOutcome.raiseErr PyError.valueError
    else RouterOutcome.skip
  | none => RouterOutcome.raiseErr PyError.valueError

/-- One observable outcome of a suspension inside `_inner_messages`:
either `ws.recv()` returns a frame within `MESSAGE_TIMEOUT`, or it times
out and the subsequent ping gets its pong within `PING_TIMEOUT`
(`idlePong`), or the pong also times out (`idleNoPong`), or the transport
reports `ConnectionClosed`, or the outer task is cancelled at this
suspension point. -/
inductive RecvStep where
  | frame (f : Frame)
  | idlePong
  | idleNoPong
  | closed
  | cancelled
deriving DecidableEq

/-- How the frame sequence of `_inner_messages` stops: `ended` covers the
two clean `return` paths (ping timeout after a receive timeout, and
`ConnectionClosed`), `cancelledExit` is a `CancelledError` propagating
through the generator. -/
inductive StreamExit where
  | ended
  | cancelledExit
deriving DecidableEq

/-- The generator `_inner_messages` (lines 109-134) over a transport
script: it yields every frame received before the first terminating step
and reports how the sequence stopped.  A receive timeout whose ping is
answered (`idlePong`) yields nothing and continues; a ping timeout or a
closed connection ends the sequence cleanly; a cancellation propagates.
An exhausted script is read as the connection closing.  The `finally`
close of the websocket is accounted for in `listen_attempt.closes`. -/
def inner_messages : List RecvStep → List Frame × StreamExit
  | [] => ([], StreamExit.ended)
  | RecvStep.frame f :: rest =>
    ((f :: (inner_messages rest).1), (inner_messages rest).2)
  | RecvStep.idlePong :: rest => inner_messages rest
  | RecvStep.idleNoPong :: _ => ([], StreamExit.ended)
  | RecvStep.closed :: _ => ([], StreamExit.ended)
  | RecvStep.cancelled :: _ => ([], StreamExit.cancelledExit)

/-- The consumer side of the `async for` loop: frames are routed one at a
time, in order; an enqueued event goes to the output queue
(`output.put_nowait`), a skipped frame leaves no trace, and a raised
error stops consumption at that frame: the queue keeps only the events
enqueued before it, and the error is reported. -/
def process_frames : List Frame → List CanonicalEvent × Option PyError
  | [] => ([], none)
  | f :: fs =>
    match classify f with
    | RouterOutcome.enqueue e =>
      ((e :: (process_frames fs).1), (process_frames fs).2)
    | RouterOutcome.skip => process_frames fs
    | RouterOutcome.raiseErr pe => ([], some pe)

/-- How one connected session ends, seen from the supervisor: `ended`
when the generator returned cleanly (the `try` body completes, no sleep),
`raised` when an exception escaped the loop body (caught by
`except Exception`, followed by the 30 second sleep), `cancelled` when a
`CancelledError` propagates (re-raised, never retried). -/
inductive SessionEnd where
  | ended
  | raised (e : PyError)
  | cancelled
deriving DecidableEq

/-- Combines the exit of the frame sequence with the routing result: a
router error takes precedence (the later suspension points of the script
are never reached in the real control flow). -/
def finish_session (ex : StreamExit) (pr : List CanonicalEvent × Option PyError) :
    List CanonicalEvent × SessionEnd :=
  match pr.2 with
  | some pe => (pr.1, SessionEnd.raised pe)
  | none =>
    match ex with
    | StreamExit.ended => (pr.1, SessionEnd.ended)
    | StreamExit.cancelledExit => (pr.1, SessionEnd.cancelled)

/-- The receive phase of one session: `_inner_messages` composed with the
routing loop. -/
def run_session (steps : List RecvStep) : List CanonicalEvent × SessionEnd :=
  finish_session (inner_messages steps).2 (process_frames (inner_messages steps).1)

/-- The quote-currency resolution, the list comprehension of lines 71-74:
`active_markets_df.loc[trading_pair, 'quoted_currency']` for each pair.
A single unknown pair raises, so the whole list fails and no subscribe
request is sent at all. -/
def lookup_quotes (quoted_currency : String → Option String) :
    List String → Option (List String)
  | [] => some []
  | p :: ps =>
    match quoted_currency p, lookup_quotes quoted_currency ps with
    | some q, some qs => some (q :: qs)
    | _, _ => none

/-- A message sent on the websocket.  `auth` is the request
`{"event": WS_AUTH_REQUEST_EVENT, "data": get_ws_auth_data()}` and
`subscribe` is `{"event": WS_PUSHER_SUBSCRIBE_EVENT, "data": {"channel": c}}`;
only the varying payload is recorded. -/
inductive OutMsg where
  | auth (data : String)
  | subscribe (channel : String)
deriving DecidableEq

/-- The subscribe requests of lines 76-85: one per resolved quote
currency, in order, each naming the channel
`Constants.WS_USER_ACCOUNTS_SUBSCRIPTION.format(quoted_currency=qc.lower())`.
The template is a parameter: the constants module is a collaborator, and
the call site hands it nothing but the lower-cased quote currency. -/
def subscribe_requests (subscription_template : String → String)
    (qcs : List String) : List OutMsg :=
  qcs.map (fun qc => OutMsg.subscribe (subscription_template (lower_string qc)))

/-- The inputs of `listen_for_user_stream` that are fixed for a run:
the channel-name template (`Constants.WS_USER_ACCOUNTS_SUBSCRIPTION`,
applied to an already lower-cased quote currency), the opaque auth
payload from `LiquidAuth.get_ws_auth_data()`, the configured
`trading_pairs`, and the quote-currency column of the active-markets
frame. -/
structure ListenConfig where
  subscription_template : String → String
  ws_auth_data : String
  trading_pairs : List String
  quoted_currency : String → Option String

/-- The per-iteration observables: the requests sent on the socket, the
events put on the output queue, whether the 30 second backoff sleep ran,
whether a cancellation propagated (ending the whole task), and how many
times the transport went from open to closed (`ws.close()` is idempotent;
the generator finally-close and the context-manager close together
produce exactly one such transition once the connection opened). -/
structure IterResult where
  sent : List OutMsg
  queued : List CanonicalEvent
  slept : Bool
  cancelled : Bool
  closes : Nat
deriving DecidableEq

/-- Script for one iteration of the `while True` loop: the connect call
itself may raise (`connectFail`) or be cancelled (`connectCancelled`);
otherwise the session runs over its transport script. -/
inductive SessionScript where
  | connectFail
  | connectCancelled
  | run (steps : List RecvStep)
deriving DecidableEq

/-- One iteration of the `while True` loop of `listen_for_user_stream`
(lines 58-107).  After a successful connect the auth request is sent
first; a failed quote-currency lookup then raises before any subscribe
request (caught by `except Exception`: backoff sleep, transport closed by
the context manager).  Otherwise all subscribe requests go out and the
receive loop runs; a clean stream end completes the `try` body with no
sleep, an escaped exception sleeps 30 seconds, and a cancellation is
re-raised. -/
def listen_attempt (cfg : ListenConfig) : SessionScript → IterResult
  | SessionScript.connectFail =>
    { sent := [], queued := [], slept := true, cancelled := false, closes := 0 }
  | SessionScript.connectCancelled =>
    { sent := [], queued := [], slept := false, cancelled := true, closes := 0 }
  | SessionScript.run steps =>
    match lookup_quotes cfg.quoted_currency cfg.trading_pairs with
    | none =>
      { sent := [OutMsg.auth cfg.ws_auth_data], queued := [],
        slept := true, cancelled := false, closes := 1 }
    | some qcs =>
      match run_session steps with
      | (q, SessionEnd.ended) =>
        { sent := OutMsg.auth cfg.ws_auth_data ::
            subscribe_requests cfg.subscription_template qcs,
          queued := q, slept := false, cancelled := false, closes := 1 }
      | (q, SessionEnd.raised _) =>
        { sent := OutMsg.auth cfg.ws_auth_data ::
            subscribe_requests cfg.subscription_template qcs,
          queued := q, slept := true, cancelled := false, closes := 1 }
      | (q, SessionEnd.cancelled) =>
        { sent := OutMsg.auth cfg.ws_auth_data ::
            subscribe_requests cfg.subscription_template qcs,
          queued := q, slept := false, cancelled := true, closes := 1 }

/-- The supervisor loop over a finite observation window of session
scripts: each script is one `while True` iteration; a propagating
cancellation ends the run (later scripts never execute), anything else
loops back to the connect step. -/
def listen_for_user_stream (cfg : ListenConfig) : List SessionScript → List IterResult
  | [] => []
  | s :: rest =>
    if (listen_attempt cfg s).cancelled then [listen_attempt cfg s]
    else listen_attempt cfg s :: listen_for_user_stream cfg rest

/-- Everything the consumer ever sees: the concatenation of the
per-iteration output queues, in iteration order. -/
def output_queue : List IterResult → List CanonicalEvent
  | [] => []
  | r :: rs => r.queued ++ output_queue rs

/-- Fused form of `run_session`, by structural recursion on the script;
proved equal to `run_session` in `run_session_eq_steps` and used for the
inductive proofs. -/
def session_steps : List RecvStep → List CanonicalEvent × SessionEnd
  | [] => ([], SessionEnd.ended)
  | RecvStep.frame f :: rest =>
    match classify f with
    | RouterOutcome.enqueue e => ((e :: (session_steps rest).1), (session_steps rest).2)
    | RouterOutcome.skip => session_steps rest
    | RouterOutcome.raiseErr pe => ([], SessionEnd.raised pe)
  | RecvStep.idlePong :: rest => session_steps rest
  | RecvStep.idleNoPong :: _ => ([], SessionEnd.ended)
  | RecvStep.closed :: _ => ([], SessionEnd.ended)
  | RecvStep.cancelled :: _ => ([], SessionEnd.cancelled)

/-- A transport step that neither terminates the frame sequence nor
cancels it: a delivered frame, or a receive timeout whose ping was
answered in time. -/
def benign : RecvStep → Bool
  | RecvStep.frame _ => true
  | RecvStep.idlePong => true
  | _ => false

/-- The frames delivered by a list of transport steps. -/
def frames_of : List RecvStep → List Frame
  | [] => []
  | RecvStep.frame f :: rest => f :: frames_of rest
  | _ :: rest => frames_of rest

/-- The frames the router classifies as updates, in receive order, up to
the first frame on which routing raises. -/
def updated_frames : List Frame → List Frame
  | [] => []
  | f :: fs =>
    match classify f with
    | RouterOutcome.enqueue _ => f :: updated_frames fs
    | RouterOutcome.skip => updated_frames fs
    | RouterOutcome.raiseErr _ => []

/-- The frames one session forwards to the output queue: nothing when the
connect call failed or was cancelled, otherwise the updates among the
frames its transport delivered. -/
def script_updates : SessionScript → List Frame
  | SessionScript.run steps => updated_frames (inner_messages steps).1
  | _ => []

/-- The frames a whole run forwards, session by session. -/
def scripts_updates : List SessionScript → List Frame
  | [] => []
  | s :: ss => script_updates s ++ scripts_updates ss

/-- Holds when every subscribe request in the list names a channel
obtained by applying the channel template to the lower-cased form of one
of the given quote currencies: the channel is built from a quote currency
alone. -/
def subscribes_only_from_quotes (subscription_template : String → String)
    (qcs : List String) (ms : List OutMsg) : Bool :=
  ms.all (fun m =>
    match m with
    | OutMsg.auth _ => true
    | OutMsg.subscribe ch => qcs.any (fun q => ch == subscription_template (lower_string q)))

/-- A concrete configuration used by the counterexamples and witnesses:
one trading pair whose quote currency resolves, with an illustrative
channel template (the template itself is a collaborator constant and no
theorem below depends on its text). -/
def demo_config : ListenConfig :=
  { subscription_template := fun qc => "user_account_" ++ qc,
    ws_auth_data := "AUTH",
    trading_pairs := ["ETHUSD"],
    quoted_currency := fun p => if p = "ETHUSD" then some "USD" else none }

/-- A configuration with two trading pairs sharing the quote currency
USD, used to show that the subscribe channel carries no trace of the
trading pair. -/
def demo_config_two : ListenConfig :=
  { subscription_template := fun qc => "user_account_" ++ qc,
    ws_auth_data := "AUTH",
    trading_pairs := ["ETHUSD", "BTCUSD"],
    quoted_currency := fun p =>
      if p = "ETHUSD" ∨ p = "BTCUSD" then some "USD" else none }

theorem finish_session_cons (ex : StreamExit) (e : CanonicalEvent)
    (pr : List CanonicalEvent × Option PyError) :
    finish_session ex (e :: pr.1, pr.2) =
      (e :: (finish_session ex pr).1, (finish_session ex pr).2) := by
  rcases pr with ⟨q, err⟩
  cases err <;> cases ex <;> rfl

theorem run_session_eq_steps (steps : List RecvStep) :
    run_session steps = session_steps steps := by
  induction steps with
  | nil => rfl
  | cons s rest ih =>
    cases s with
    | frame f =>
      cases hc : classify f with
      | enqueue e =>
        simp only [run_session] at ih
        simp only [run_session, inner_messages, process_frames, hc, session_steps]
        rw [finish_session_cons, ih]
      | skip =>
        simp only [run_session] at ih
        simp only [run_session, inner_messages, process_frames, hc, session_steps]
        exact ih
      | raiseErr pe =>
        simp only [run_session, inner_messages, process_frames, hc, session_steps,
          finish_session]
    | idlePong =>
      simp only [run_session] at ih
      simp only [run_session, inner_messages, session_steps]
      exact ih
    | idleNoPong => rfl
    | closed => rfl
    | cancelled => rfl

theorem inner_messages_append_benign (pre : List RecvStep)
    (hb : ∀ s ∈ pre, benign s = true) (tail : List RecvStep) :
    inner_messages (pre ++ tail) =
      (frames_of pre ++ (inner_messages tail).1, (inner_messages tail).2) := by
  induction pre with
  | nil => simp [frames_of]
  | cons s pre ih =>
    have hs : benign s = true := hb s (List.mem_cons_self s pre)
    have hb2 : ∀ x ∈ pre, benign x = true := fun x hx => hb x (List.mem_cons_of_mem s hx)
    cases s with
    | frame f => simp [inner_messages, frames_of, ih hb2]
    | idlePong => simpa [inner_messages, frames_of] using ih hb2
    | idleNoPong => simp [benign] at hs
    | closed => simp [benign] at hs
    | cancelled => simp [benign] at hs

theorem session_steps_append_benign (pre : List RecvStep)
    (hb : ∀ s ∈ pre, benign s = true)
    (hne : (process_frames (frames_of pre)).2 = none) (tail : List RecvStep) :
    session_steps (pre ++ tail) =
      ((process_frames (frames_of pre)).1 ++ (session_steps tail).1,
        (session_steps tail).2) := by
  induction pre with
  | nil => simp [process_frames, frames_of]
  | cons s pre ih =>
    have hs : benign s = true := hb s (List.mem_cons_self s pre)
    have hb2 : ∀ x ∈ pre, benign x = true := fun x hx => hb x (List.mem_cons_of_mem s hx)
    cases s with
    | frame f =>
      cases hc : classify f with
      | enqueue e =>
        have hne2 : (process_frames (frames_of pre)).2 = none := by
          simpa [frames_of, process_frames, hc] using hne
        simp [session_steps, frames_of, process_frames, hc, ih hb2 hne2]
      | skip =>
        have hne2 : (process_frames (frames_of pre)).2 = none := by
          simpa [frames_of, process_frames, hc] using hne
        simp [session_steps, frames_of, process_frames, hc, ih hb2 hne2]
      | raiseErr pe =>
        exfalso
        simp [frames_of, process_frames, hc] at hne
    | idlePong =>
      have hne2 : (process_frames (frames_of pre)).2 = none := by
        simpa [frames_of] using hne
      simpa [session_steps, frames_of] using ih hb2 hne2
    | idleNoPong => simp [benign] at hs
    | closed => simp [benign] at hs
    | cancelled => simp [benign] at hs

theorem classify_updated_frame (ch b : String) :
    classify ⟨some "updated", some ch, b⟩ =
      RouterOutcome.enqueue
        ⟨upper_string (last_underscore_segment ch), (), ⟨some "updated", some ch, b⟩⟩ := by
  rfl

theorem classify_no_channel (b : String) :
    classify ⟨some "updated", none, b⟩ =
      RouterOutcome.raiseErr PyError.attributeError := by
  rfl

theorem classify_none_event (ch : Option String) (b : String) :
    classify ⟨none, ch, b⟩ = RouterOutcome.raiseErr PyError.valueError := by
  rfl

theorem classify_empty_event (ch : Option String) (b : String) :
    classify ⟨some "", ch, b⟩ = RouterOutcome.raiseErr PyError.valueError := by
  rfl

theorem classify_skip_event (ev : String) (ch : Option String) (b : String)
    (h1 : ev ≠ "updated") (h2 : ev ≠ "") :
    classify ⟨some ev, ch, b⟩ = RouterOutcome.skip := by
  simp only [classify]
  rw [if_neg h1, if_neg h2]

theorem classify_enqueue_payload {f : Frame} {e : CanonicalEvent}
    (h : classify f = RouterOutcome.enqueue e) : e.payload = f := by
  unfold classify at h
  split at h
  · split at h
    · split at h
      · injection h with h2
        rw [← h2]
      · simp at h
    · split at h
      · simp at h
      · simp at h
  · simp at h

theorem process_frames_payloads (fs : List Frame) :
    (process_frames fs).1.map (fun e => e.payload) = updated_frames fs := by
  induction fs with
  | nil => rfl
  | cons f fs ih =>
    cases hc : classify f with
    | enqueue e =>
      simp [process_frames, updated_frames, hc, ih, classify_enqueue_payload hc]
    | skip => simp [process_frames, updated_frames, hc, ih]
    | raiseErr pe => simp [process_frames, updated_frames, hc]

theorem lookup_quotes_length {cat : String → Option String} :
    ∀ {ps : List String} {qs : List String},
      lookup_quotes cat ps = some qs → qs.length = ps.length := by
  intro ps
  induction ps with
  | nil =>
    intro qs h
    simp [lookup_quotes] at h
    simp [← h]
  | cons p ps ih =>
    intro qs h
    simp only [lookup_quotes] at h
    cases hq : cat p with
    | none => rw [hq] at h; simp at h
    | some q =>
      cases hr : lookup_quotes cat ps with
      | none => rw [hq, hr] at h; simp at h
      | some qs2 =>
        rw [hq, hr] at h
        simp at h
        rw [← h]
        simp [ih hr]

theorem inner_messages_congr (pre : List RecvStep) {t1 t2 : List RecvStep}
    (h : inner_messages t1 = inner_messages t2) :
    inner_messages (pre ++ t1) = inner_messages (pre ++ t2) := by
  induction pre with
  | nil => simpa using h
  | cons s pre ih =>
    cases s with
    | frame f => simp [inner_messages, ih]
    | idlePong => simpa [inner_messages] using ih
    | idleNoPong => simp [inner_messages]
    | closed => simp [inner_messages]
    | cancelled => simp [inner_messages]

theorem run_session_congr {a b : List RecvStep}
    (h : inner_messages a = inner_messages b) : run_session a = run_session b := by
  simp [run_session, h]

theorem listen_attempt_congr (cfg : ListenConfig) {a b : List RecvStep}
    (h : run_session a = run_session b) :
    listen_attempt cfg (SessionScript.run a) = listen_attempt cfg (SessionScript.run b) := by
  cases hl : lookup_quotes cfg.quoted_currency cfg.trading_pairs with
  | none => simp [listen_attempt, hl]
  | some qcs => simp [listen_attempt, hl, h]

theorem listen_stream_cons (cfg : ListenConfig) (s : SessionScript)
    (rest : List SessionScript) (h : (listen_attempt cfg s).cancelled = false) :
    listen_for_user_stream cfg (s :: rest) =
      listen_attempt cfg s :: listen_for_user_stream cfg rest := by
  simp [listen_for_user_stream, h]

theorem listen_stream_cons_cancelled (cfg : ListenConfig) (s : SessionScript)
    (rest : List SessionScript) (h : (listen_attempt cfg s).cancelled = true) :
    listen_for_user_stream cfg (s :: rest) = [listen_attempt cfg s] := by
  simp [listen_for_user_stream, h]

theorem listen_attempt_run_ended (cfg : ListenConfig) (qcs : List String)
    (hq : lookup_quotes cfg.quoted_currency cfg.trading_pairs = some qcs)
    (steps : List RecvStep) (q : List CanonicalEvent)
    (hs : run_session steps = (q, SessionEnd.ended)) :
    listen_attempt cfg (SessionScript.run steps) =
      { sent := OutMsg.auth cfg.ws_auth_data ::
          subscribe_requests cfg.subscription_template qcs,
        queued := q, slept := false, cancelled := false, closes := 1 } := by
  simp [listen_attempt, hq, hs]

theorem listen_attempt_run_raised (cfg : ListenConfig) (qcs : List String)
    (hq : lookup_quotes cfg.quoted_currency cfg.trading_pairs = some qcs)
    (steps : List RecvStep) (q : List CanonicalEvent) (pe : PyError)
    (hs : run_session steps = (q, SessionEnd.raised pe)) :
    listen_attempt cfg (SessionScript.run steps) =
      { sent := OutMsg.auth cfg.ws_auth_data ::
          subscribe_requests cfg.subscription_template qcs,
        queued := q, slept := true, cancelled := false, closes := 1 } := by
  simp [listen_attempt, hq, hs]

theorem listen_attempt_run_cancelled (cfg : ListenConfig) (qcs : List String)
    (hq : lookup_quotes cfg.quoted_currency cfg.trading_pairs = some qcs)
    (steps : List RecvStep) (q : List CanonicalEvent)
    (hs : run_session steps = (q, SessionEnd.cancelled)) :
    listen_attempt cfg (SessionScript.run steps) =
      { sent := OutMsg.auth cfg.ws_auth_data ::
          subscribe_requests cfg.subscription_template qcs,
        queued := q, slept := false, cancelled := true, closes := 1 } := by
  simp [listen_attempt, hq, hs]

theorem session_steps_skip_insert {f : Frame} (hf : classify f = RouterOutcome.skip) :
    ∀ pre tail : List RecvStep,
      session_steps (pre ++ RecvStep.frame f :: tail) = session_steps (pre ++ tail) := by
  intro pre
  induction pre with
  | nil => intro tail; simp [session_steps, hf]
  | cons s pre ih =>
    intro tail
    cases s with
    | frame g =>
      cases hc : classify g with
      | enqueue e => simp [session_steps, hc, ih tail]
      | skip => simp [session_steps, hc, ih tail]
      | raiseErr pe => simp [session_steps, hc]
    | idlePong => simp [session_steps, ih tail]
    | idleNoPong => simp [session_steps]
    | closed => simp [session_steps]
    | cancelled => simp [session_steps]

/-- C2: a frame whose event field equals updated is routed to the output
queue carrying the trading pair obtained as the last underscore-delimited
segment of the channel name, upper-cased; in particular the channel
user_executions_cash_ethusd yields trading_pair ETHUSD. -/
theorem updated_frame_trading_pair_from_channel (ch b : String) (tail : List RecvStep) :
    run_session (RecvStep.frame ⟨some "updated", some ch, b⟩ :: tail) =
      (⟨upper_string (last_underscore_segment ch), (),
          ⟨some "updated", some ch, b⟩⟩ :: (run_session tail).1,
        (run_session tail).2)
    ∧ (run_session
        [RecvStep.frame ⟨some "updated", some "user_executions_cash_ethusd", b⟩]).1.map
        (fun e => e.trading_pair) = ["ETHUSD"] := by
  constructor
  · rw [run_session_eq_steps, run_session_eq_steps]
    simp [session_steps, classify_updated_frame]
  · rw [run_session_eq_steps]
    simp [session_steps, classify_updated_frame]
    decide

/-- C7: a receive timeout whose ping is answered within the ping timeout
is invisible: the frame sequence continues exactly as if the timeout had
not happened, and the whole session iteration (requests sent, events
queued, backoff, cancellation, transport closes) is unchanged, so a
message timeout alone never triggers a reconnect. -/
theorem message_timeout_with_pong_continues (cfg : ListenConfig)
    (pre tail : List RecvStep) :
    inner_messages (pre ++ RecvStep.idlePong :: tail) = inner_messages (pre ++ tail)
    ∧ listen_attempt cfg (SessionScript.run (pre ++ RecvStep.idlePong :: tail)) =
        listen_attempt cfg (SessionScript.run (pre ++ tail)) := by
  have h1 : inner_messages (RecvStep.idlePong :: tail) = inner_messages tail := rfl
  have h2 := inner_messages_congr pre h1
  exact ⟨h2, listen_attempt_congr cfg (run_session_congr h2)⟩

/-- C8: a frame with a present, non-empty event field different from
updated (for example heartbeat) is classified as noise: nothing is
enqueued and the session iteration is exactly what it would have been had
the frame never arrived. -/
theorem non_update_event_ignored (cfg : ListenConfig) (ev : String)
    (chn : Option String) (b : String) (pre tail : List RecvStep)
    (h1 : ev ≠ "updated") (h2 : ev ≠ "") :
    classify ⟨some ev, chn, b⟩ = RouterOutcome.skip
    ∧ run_session (pre ++ RecvStep.frame ⟨some ev, chn, b⟩ :: tail) =
        run_session (pre ++ tail)
    ∧ listen_attempt cfg (SessionScript.run (pre ++ RecvStep.frame ⟨some ev, chn, b⟩ :: tail)) =
        listen_attempt cfg (SessionScript.run (pre ++ tail)) := by
  have hskip := classify_skip_event ev chn b h1 h2
  have hrs : run_session (pre ++ RecvStep.frame ⟨some ev, chn, b⟩ :: tail) =
      run_session (pre ++ tail) := by
    rw [run_session_eq_steps, run_session_eq_steps]
    exact session_steps_skip_insert hskip pre tail
  exact ⟨hskip, hrs, listen_attempt_congr cfg hrs⟩

theorem finish_session_fst (ex : StreamExit) (pr : List CanonicalEvent × Option PyError) :
    (finish_session ex pr).1 = pr.1 := by
  rcases pr with ⟨q, err⟩
  cases err <;> cases ex <;> rfl

theorem run_session_payloads (steps : List RecvStep) :
    (run_session steps).1.map (fun e => e.payload) =
      updated_frames (inner_messages steps).1 := by
  unfold run_session
  rw [finish_session_fst, process_frames_payloads]

theorem listen_attempt_sent (cfg : ListenConfig) (qcs : List String)
    (steps : List RecvStep)
    (hq : lookup_quotes cfg.quoted_currency cfg.trading_pairs = some qcs) :
    (listen_attempt cfg (SessionScript.run steps)).sent =
      OutMsg.auth cfg.ws_auth_data :: subscribe_requests cfg.subscription_template qcs := by
  rcases hrs : run_session steps with ⟨q, e⟩
  cases e with
  | ended => rw [listen_attempt_run_ended cfg qcs hq steps q hrs]
  | raised pe => rw [listen_attempt_run_raised cfg qcs hq steps q pe hrs]
  | cancelled => rw [listen_attempt_run_cancelled cfg qcs hq steps q hrs]

theorem subscribe_requests_only_from_quotes (tmpl : String → String)
    (qcs all_qcs : List String) (hsub : ∀ q ∈ qcs, q ∈ all_qcs) :
    subscribes_only_from_quotes tmpl all_qcs (subscribe_requests tmpl qcs) = true := by
  induction qcs with
  | nil => rfl
  | cons q qs ih =>
    have hq : q ∈ all_qcs := hsub q (List.mem_cons_self q qs)
    have hrest : ∀ x ∈ qs, x ∈ all_qcs := fun x hx => hsub x (List.mem_cons_of_mem q hx)
    have ih2 := ih hrest
    simp only [subscribes_only_from_quotes, subscribe_requests, List.map_cons,
      List.all_cons, Bool.and_eq_true] at ih2 ⊢
    refine ⟨?_, ih2⟩
    rw [List.any_eq_true]
    exact ⟨q, hq, by simp⟩

/-- C3: a frame whose decoded body has an absent or empty event field
makes the router raise the ValueError of line 101: the session ends with
that error, the queue holds only the events enqueued before the frame and
nothing for the frame itself, the supervisor runs the 30 second backoff
(not a cancellation) and then reconnects: the next session script is
executed. -/
theorem missing_event_raises_and_reconnects (cfg : ListenConfig) (qcs : List String)
    (pre tail : List RecvStep) (f : Frame) (scripts : List SessionScript)
    (hb : ∀ s ∈ pre, benign s = true)
    (hne : (process_frames (frames_of pre)).2 = none)
    (hq : lookup_quotes cfg.quoted_currency cfg.trading_pairs = some qcs)
    (hf : f.event = none ∨ f.event = some "") :
    run_session (pre ++ RecvStep.frame f :: tail) =
      ((process_frames (frames_of pre)).1, SessionEnd.raised PyError.valueError)
    ∧ (listen_attempt cfg (SessionScript.run (pre ++ RecvStep.frame f :: tail))).queued =
        (process_frames (frames_of pre)).1
    ∧ (listen_attempt cfg (SessionScript.run (pre ++ RecvStep.frame f :: tail))).slept = true
    ∧ (listen_attempt cfg (SessionScript.run (pre ++ RecvStep.frame f :: tail))).cancelled = false
    ∧ listen_for_user_stream cfg
        (SessionScript.run (pre ++ RecvStep.frame f :: tail) :: scripts) =
        listen_attempt cfg (SessionScript.run (pre ++ RecvStep.frame f :: tail)) ::
          listen_for_user_stream cfg scripts := by
  have hcf : classify f = RouterOutcome.raiseErr PyError.valueError := by
    rcases f with ⟨ev, chn, b⟩
    rcases hf with h | h
    · have h2 : ev = none := h
      subst h2
      exact classify_none_event chn b
    · have h2 : ev = some "" := h
      subst h2
      exact classify_empty_event chn b
  have hrs : run_session (pre ++ RecvStep.frame f :: tail) =
      ((process_frames (frames_of pre)).1, SessionEnd.raised PyError.valueError) := by
    rw [run_session_eq_steps, session_steps_append_benign pre hb hne]
    simp [session_steps, hcf]
  have hla := listen_attempt_run_raised cfg qcs hq _ _ _ hrs
  refine ⟨hrs, ?_, ?_, ?_, ?_⟩
  · rw [hla]
  · rw [hla]
  · rw [hla]
  · exact listen_stream_cons cfg _ scripts (by rw [hla])

/-- Witness for C3 at a frame with no event key as the first receipt of a
session. -/
theorem missing_event_raises_and_reconnects_witness :
    (∀ s ∈ ([] : List RecvStep), benign s = true)
    ∧ (process_frames (frames_of ([] : List RecvStep))).2 = none
    ∧ lookup_quotes demo_config.quoted_currency demo_config.trading_pairs = some ["USD"]
    ∧ ((⟨none, none, "x"⟩ : Frame).event = none ∨ (⟨none, none, "x"⟩ : Frame).event = some "")
    ∧ (run_session [RecvStep.frame ⟨none, none, "x"⟩] =
        ([], SessionEnd.raised PyError.valueError)
      ∧ (listen_attempt demo_config
          (SessionScript.run [RecvStep.frame ⟨none, none, "x"⟩])).queued = []
      ∧ (listen_attempt demo_config
          (SessionScript.run [RecvStep.frame ⟨none, none, "x"⟩])).slept = true
      ∧ (listen_attempt demo_config
          (SessionScript.run [RecvStep.frame ⟨none, none, "x"⟩])).cancelled = false
      ∧ listen_for_user_stream demo_config
          [SessionScript.run [RecvStep.frame ⟨none, none, "x"⟩]] =
          [listen_attempt demo_config (SessionScript.run [RecvStep.frame ⟨none, none, "x"⟩])]) :=
  ⟨by decide, by decide, by decide, Or.inl rfl,
    missing_event_raises_and_reconnects demo_config ["USD"] [] []
      ⟨none, none, "x"⟩ [] (by decide) (by decide) (by decide) (Or.inl rfl)⟩

/-- C10: a frame with event updated but no channel key makes line 92
raise an AttributeError on None.split; the exception is not caught inside
the loop, so the session is torn down exactly like a protocol error: the
frame is not skipped, the backoff sleep runs and the supervisor
reconnects with the next script. -/
theorem updated_without_channel_raises_and_reconnects (cfg : ListenConfig)
    (qcs : List String) (pre tail : List RecvStep) (b : String)
    (scripts : List SessionScript)
    (hb : ∀ s ∈ pre, benign s = true)
    (hne : (process_frames (frames_of pre)).2 = none)
    (hq : lookup_quotes cfg.quoted_currency cfg.trading_pairs = some qcs) :
    classify ⟨some "updated", none, b⟩ = RouterOutcome.raiseErr PyError.attributeError
    ∧ run_session (pre ++ RecvStep.frame ⟨some "updated", none, b⟩ :: tail) =
        ((process_frames (frames_of pre)).1, SessionEnd.raised PyError.attributeError)
    ∧ (listen_attempt cfg
        (SessionScript.run (pre ++ RecvStep.frame ⟨some "updated", none, b⟩ :: tail))).queued =
        (process_frames (frames_of pre)).1
    ∧ (listen_attempt cfg
        (SessionScript.run (pre ++ RecvStep.frame ⟨some "updated", none, b⟩ :: tail))).slept = true
    ∧ (listen_attempt cfg
        (SessionScript.run (pre ++ RecvStep.frame ⟨some "updated", none, b⟩ :: tail))).cancelled = false
    ∧ listen_for_user_stream cfg
        (SessionScript.run (pre ++ RecvStep.frame ⟨some "updated", none, b⟩ :: tail) :: scripts) =
        listen_attempt cfg
          (SessionScript.run (pre ++ RecvStep.frame ⟨some "updated", none, b⟩ :: tail)) ::
          listen_for_user_stream cfg scripts := by
  have hcf := classify_no_channel b
  have hrs : run_session (pre ++ RecvStep.frame ⟨some "updated", none, b⟩ :: tail) =
      ((process_frames (frames_of pre)).1, SessionEnd.raised PyError.attributeError) := by
    rw [run_session_eq_steps, session_steps_append_benign pre hb hne]
    simp [session_steps, hcf]
  have hla := listen_attempt_run_raised cfg qcs hq _ _ _ hrs
  refine ⟨hcf, hrs, ?_, ?_, ?_, ?_⟩
  · rw [hla]
  · rw [hla]
  · rw [hla]
  · exact listen_stream_cons cfg _ scripts (by rw [hla])

/-- Witness for C10 with the malformed updated frame arriving after a
well-formed update. -/
theorem updated_without_channel_raises_and_reconnects_witness :
    (∀ s ∈ [RecvStep.frame ⟨some "updated", some "user_account_usd", "g"⟩], benign s = true)
    ∧ (process_frames
        (frames_of [RecvStep.frame ⟨some "updated", some "user_account_usd", "g"⟩])).2 = none
    ∧ lookup_quotes demo_config.quoted_currency demo_config.trading_pairs = some ["USD"]
    ∧ (classify ⟨some "updated", none, "x"⟩ = RouterOutcome.raiseErr PyError.attributeError
      ∧ run_session (RecvStep.frame ⟨some "updated", some "user_account_usd", "g"⟩ ::
          RecvStep.frame ⟨some "updated", none, "x"⟩ :: []) =
          ((process_frames
            (frames_of [RecvStep.frame ⟨some "updated", some "user_account_usd", "g"⟩])).1,
            SessionEnd.raised PyError.attributeError)
      ∧ (listen_attempt demo_config
          (SessionScript.run (RecvStep.frame ⟨some "updated", some "user_account_usd", "g"⟩ ::
            RecvStep.frame ⟨some "updated", none, "x"⟩ :: []))).queued =
          (process_frames
            (frames_of [RecvStep.frame ⟨some "updated", some "user_account_usd", "g"⟩])).1
      ∧ (listen_attempt demo_config
          (SessionScript.run (RecvStep.frame ⟨some "updated", some "user_account_usd", "g"⟩ ::
            RecvStep.frame ⟨some "updated", none, "x"⟩ :: []))).slept = true
      ∧ (listen_attempt demo_config
          (SessionScript.run (RecvStep.frame ⟨some "updated", some "user_account_usd", "g"⟩ ::
            RecvStep.frame ⟨some "updated", none, "x"⟩ :: []))).cancelled = false
      ∧ listen_for_user_stream demo_config
          (SessionScript.run (RecvStep.frame ⟨some "updated", some "user_account_usd", "g"⟩ ::
            RecvStep.frame ⟨some "updated", none, "x"⟩ :: []) ::
            [SessionScript.run []]) =
          listen_attempt demo_config
            (SessionScript.run (RecvStep.frame ⟨some "updated", some "user_account_usd", "g"⟩ ::
              RecvStep.frame ⟨some "updated", none, "x"⟩ :: [])) ::
            listen_for_user_stream demo_config [SessionScript.run []]) :=
  ⟨by decide, by decide, by decide,
    updated_without_channel_raises_and_reconnects demo_config ["USD"]
      [RecvStep.frame ⟨some "updated", some "user_account_usd", "g"⟩] [] "x"
      [SessionScript.run []] (by decide) (by decide) (by decide)⟩

/-- C1 counterexample: a session that dies of a ping timeout is followed
by an immediate reconnect with no backoff sleep at all: the supervisor
runs a second connect attempt (the run has two iterations) and no
iteration slept, refuting the claimed fixed 30-second delay before the
restart. -/
theorem pong_timeout_reconnect_no_backoff_cex :
    (listen_for_user_stream demo_config
        [SessionScript.run [RecvStep.idleNoPong], SessionScript.run []]).map
      (fun r => r.slept) = [false, false]
    ∧ (listen_for_user_stream demo_config
        [SessionScript.run [RecvStep.idleNoPong], SessionScript.run []]).length = 2 := by
  decide

/-- C1 amended: when the heartbeat ping of a session gets no pong within
the ping timeout, the frame sequence terminates (the generator returns
cleanly after the frames received so far), the session ends without an
exception, and the supervisor reconnects immediately: the backoff sleep
is not executed and the next session script runs right away.  The fixed
30-second delay applies only to sessions that end in an exception. -/
theorem pong_timeout_immediate_reconnect (cfg : ListenConfig) (qcs : List String)
    (pre tail : List RecvStep) (scripts : List SessionScript)
    (hb : ∀ s ∈ pre, benign s = true)
    (hne : (process_frames (frames_of pre)).2 = none)
    (hq : lookup_quotes cfg.quoted_currency cfg.trading_pairs = some qcs) :
    inner_messages (pre ++ RecvStep.idleNoPong :: tail) = (frames_of pre, StreamExit.ended)
    ∧ run_session (pre ++ RecvStep.idleNoPong :: tail) =
        ((process_frames (frames_of pre)).1, SessionEnd.ended)
    ∧ (listen_attempt cfg (SessionScript.run (pre ++ RecvStep.idleNoPong :: tail))).slept = false
    ∧ (listen_attempt cfg (SessionScript.run (pre ++ RecvStep.idleNoPong :: tail))).cancelled = false
    ∧ listen_for_user_stream cfg
        (SessionScript.run (pre ++ RecvStep.idleNoPong :: tail) :: scripts) =
        listen_attempt cfg (SessionScript.run (pre ++ RecvStep.idleNoPong :: tail)) ::
          listen_for_user_stream cfg scripts := by
  have hin : inner_messages (pre ++ RecvStep.idleNoPong :: tail) =
      (frames_of pre, StreamExit.ended) := by
    rw [inner_messages_append_benign pre hb]
    simp [inner_messages]
  have hrs : run_session (pre ++ RecvStep.idleNoPong :: tail) =
      ((process_frames (frames_of pre)).1, SessionEnd.ended) := by
    rw [run_session_eq_steps, session_steps_append_benign pre hb hne]
    simp [session_steps]
  have hla := listen_attempt_run_ended cfg qcs hq _ _ hrs
  refine ⟨hin, hrs, ?_, ?_, ?_⟩
  · rw [hla]
  · rw [hla]
  · exact listen_stream_cons cfg _ scripts (by rw [hla])

/-- Witness for the amended C1 with one frame delivered before the
heartbeat death. -/
theorem pong_timeout_immediate_reconnect_witness :
    (∀ s ∈ [RecvStep.frame ⟨some "heartbeat", none, "hb"⟩], benign s = true)
    ∧ (process_frames
        (frames_of [RecvStep.frame ⟨some "heartbeat", none, "hb"⟩])).2 = none
    ∧ lookup_quotes demo_config.quoted_currency demo_config.trading_pairs = some ["USD"]
    ∧ (inner_messages (RecvStep.frame ⟨some "heartbeat", none, "hb"⟩ ::
          RecvStep.idleNoPong :: []) =
        (frames_of [RecvStep.frame ⟨some "heartbeat", none, "hb"⟩], StreamExit.ended)
      ∧ run_session (RecvStep.frame ⟨some "heartbeat", none, "hb"⟩ ::
          RecvStep.idleNoPong :: []) =
          ((process_frames
            (frames_of [RecvStep.frame ⟨some "heartbeat", none, "hb"⟩])).1,
            SessionEnd.ended)
      ∧ (listen_attempt demo_config
          (SessionScript.run (RecvStep.frame ⟨some "heartbeat", none, "hb"⟩ ::
            RecvStep.idleNoPong :: []))).slept = false
      ∧ (listen_attempt demo_config
          (SessionScript.run (RecvStep.frame ⟨some "heartbeat", none, "hb"⟩ ::
            RecvStep.idleNoPong :: []))).cancelled = false
      ∧ listen_for_user_stream demo_config
          (SessionScript.run (RecvStep.frame ⟨some "heartbeat", none, "hb"⟩ ::
            RecvStep.idleNoPong :: []) :: [SessionScript.run []]) =
          listen_attempt demo_config
            (SessionScript.run (RecvStep.frame ⟨some "heartbeat", none, "hb"⟩ ::
              RecvStep.idleNoPong :: [])) ::
            listen_for_user_stream demo_config [SessionScript.run []]) :=
  ⟨by decide, by decide, by decide,
    pong_timeout_immediate_reconnect demo_config ["USD"]
      [RecvStep.frame ⟨some "heartbeat", none, "hb"⟩] [] [SessionScript.run []]
      (by decide) (by decide) (by decide)⟩

/-- C6: a cancellation at a receive-loop suspension point ends the frame
sequence and the session with a cancellation, the backoff sleep is not
invoked, the transport (which had been opened) goes from open to closed
exactly once, and the supervisor stops: later session scripts are never
executed, so the run is exactly the one cancelled iteration. -/
theorem cancellation_propagates_closes_once (cfg : ListenConfig) (qcs : List String)
    (pre tail : List RecvStep) (scripts : List SessionScript)
    (hb : ∀ s ∈ pre, benign s = true)
    (hne : (process_frames (frames_of pre)).2 = none)
    (hq : lookup_quotes cfg.quoted_currency cfg.trading_pairs = some qcs) :
    run_session (pre ++ RecvStep.cancelled :: tail) =
      ((process_frames (frames_of pre)).1, SessionEnd.cancelled)
    ∧ (listen_attempt cfg (SessionScript.run (pre ++ RecvStep.cancelled :: tail))).cancelled = true
    ∧ (listen_attempt cfg (SessionScript.run (pre ++ RecvStep.cancelled :: tail))).slept = false
    ∧ (listen_attempt cfg (SessionScript.run (pre ++ RecvStep.cancelled :: tail))).closes = 1
    ∧ listen_for_user_stream cfg
        (SessionScript.run (pre ++ RecvStep.cancelled :: tail) :: scripts) =
        [listen_attempt cfg (SessionScript.run (pre ++ RecvStep.cancelled :: tail))] := by
  have hrs : run_session (pre ++ RecvStep.cancelled :: tail) =
      ((process_frames (frames_of pre)).1, SessionEnd.cancelled) := by
    rw [run_session_eq_steps, session_steps_append_benign pre hb hne]
    simp [session_steps]
  have hla := listen_attempt_run_cancelled cfg qcs hq _ _ hrs
  refine ⟨hrs, ?_, ?_, ?_, ?_⟩
  · rw [hla]
  · rw [hla]
  · rw [hla]
  · exact listen_stream_cons_cancelled cfg _ scripts (by rw [hla])

/-- Witness for C6: a cancellation on the first receive, with a further
session script present that is indeed never executed. -/
theorem cancellation_propagates_closes_once_witness :
    (∀ s ∈ ([] : List RecvStep), benign s = true)
    ∧ (process_frames (frames_of ([] : List RecvStep))).2 = none
    ∧ lookup_quotes demo_config.quoted_currency demo_config.trading_pairs = some ["USD"]
    ∧ (run_session [RecvStep.cancelled] = ([], SessionEnd.cancelled)
      ∧ (listen_attempt demo_config (SessionScript.run [RecvStep.cancelled])).cancelled = true
      ∧ (listen_attempt demo_config (SessionScript.run [RecvStep.cancelled])).slept = false
      ∧ (listen_attempt demo_config (SessionScript.run [RecvStep.cancelled])).closes = 1
      ∧ listen_for_user_stream demo_config
          (SessionScript.run [RecvStep.cancelled] :: [SessionScript.run []]) =
          [listen_attempt demo_config (SessionScript.run [RecvStep.cancelled])]) :=
  ⟨by decide, by decide, by decide,
    cancellation_propagates_closes_once demo_config ["USD"] [] []
      [SessionScript.run []] (by decide) (by decide) (by decide)⟩

/-- Witness for C8 at the heartbeat frame of the spec. -/
theorem non_update_event_ignored_witness :
    ("heartbeat" : String) ≠ "updated" ∧ ("heartbeat" : String) ≠ ""
    ∧ (classify ⟨some "heartbeat", none, "hb"⟩ = RouterOutcome.skip
      ∧ run_session [RecvStep.frame ⟨some "heartbeat", none, "hb"⟩] = run_session []
      ∧ listen_attempt demo_config
          (SessionScript.run [RecvStep.frame ⟨some "heartbeat", none, "hb"⟩]) =
          listen_attempt demo_config (SessionScript.run [])) :=
  ⟨by decide, by decide,
    non_update_event_ignored demo_config "heartbeat" none "hb" [] []
      (by decide) (by decide)⟩

/-- C4: in a session whose trading pairs all resolve to a quote currency,
the requests sent on the socket are exactly one authentication request
first, followed by one subscribe request per configured trading pair, in
the input order of the pairs (the resolved quote currencies are in pair
order and there are as many subscribe requests as pairs). -/
theorem session_sends_auth_then_one_subscribe_per_pair (cfg : ListenConfig)
    (qcs : List String) (steps : List RecvStep)
    (hq : lookup_quotes cfg.quoted_currency cfg.trading_pairs = some qcs) :
    (listen_attempt cfg (SessionScript.run steps)).sent =
      OutMsg.auth cfg.ws_auth_data :: subscribe_requests cfg.subscription_template qcs
    ∧ (subscribe_requests cfg.subscription_template qcs).length =
        cfg.trading_pairs.length := by
  constructor
  · exact listen_attempt_sent cfg qcs steps hq
  · rw [subscribe_requests, List.length_map, lookup_quotes_length hq]

/-- Witness for C4 on the one-pair demo configuration. -/
theorem session_sends_auth_then_one_subscribe_per_pair_witness :
    lookup_quotes demo_config.quoted_currency demo_config.trading_pairs = some ["USD"]
    ∧ ((listen_attempt demo_config (SessionScript.run [])).sent =
        OutMsg.auth demo_config.ws_auth_data ::
          subscribe_requests demo_config.subscription_template ["USD"]
      ∧ (subscribe_requests demo_config.subscription_template ["USD"]).length =
          demo_config.trading_pairs.length) :=
  ⟨by decide,
    session_sends_auth_then_one_subscribe_per_pair demo_config ["USD"] [] (by decide)⟩

/-- C9 counterexample: with two trading pairs ETHUSD and BTCUSD sharing
the quote currency USD, the session sends two identical subscribe
requests whose channel is the template applied to usd alone; the channel
sent for ETHUSD is not of the claimed form family_usdethusd for any
event-family string, since no such string can equal user_account_usd. -/
theorem subscribe_channel_lacks_pair_cex :
    (listen_attempt demo_config_two (SessionScript.run [])).sent =
      [OutMsg.auth "AUTH", OutMsg.subscribe "user_account_usd",
        OutMsg.subscribe "user_account_usd"]
    ∧ ¬ ∃ family : String,
        "user_account_usd" = family ++ "_" ++ "usd" ++ "ethusd" := by
  constructor
  · decide
  · rintro ⟨family, hf⟩
    have h1 : (family ++ "_" ++ "usd" ++ "ethusd").data =
        family.data ++ "_usdethusd".data := by
      show ((family.data ++ "_".data) ++ "usd".data) ++ "ethusd".data =
        family.data ++ "_usdethusd".data
      rw [List.append_assoc, List.append_assoc]
      rfl
    have hd : "user_account_usd".data = family.data ++ "_usdethusd".data := by
      rw [← h1, ← hf]
    have hlen : family.data.length = 6 := by
      have h2 := congrArg List.length hd
      rw [List.length_append] at h2
      have h5 : ("user_account_usd".data).length = 16 := by decide
      have h6 : ("_usdethusd".data).length = 10 := by decide
      rw [h5, h6] at h2
      omega
    have h3 : (family.data ++ "_usdethusd".data).drop 6 = "_usdethusd".data := by
      have h4 := List.drop_left family.data ("_usdethusd".data)
      rw [hlen] at h4
      exact h4
    have hdrop := congrArg (List.drop 6) hd
    rw [h3] at hdrop
    exact absurd hdrop (by decide)

/-- C9 amended: every subscribe request a session sends names a channel
built by applying the fixed channel template to the lower-cased quote
currency of one of the configured pairs, and nothing else: the trading
pair itself does not enter the channel name, so pairs sharing a quote
currency produce identical subscribe requests. -/
theorem subscribe_channels_from_quote_only (cfg : ListenConfig) (qcs : List String)
    (steps : List RecvStep)
    (hq : lookup_quotes cfg.quoted_currency cfg.trading_pairs = some qcs) :
    subscribes_only_from_quotes cfg.subscription_template qcs
      (listen_attempt cfg (SessionScript.run steps)).sent = true := by
  rw [listen_attempt_sent cfg qcs steps hq]
  have h1 : subscribes_only_from_quotes cfg.subscription_template qcs
      (OutMsg.auth cfg.ws_auth_data :: subscribe_requests cfg.subscription_template qcs) =
      subscribes_only_from_quotes cfg.subscription_template qcs
        (subscribe_requests cfg.subscription_template qcs) := by
    simp [subscribes_only_from_quotes]
  rw [h1]
  exact subscribe_requests_only_from_quotes cfg.subscription_template qcs qcs
    (fun q hq2 => hq2)

/-- Witness for the amended C9 on the two-pair demo configuration. -/
theorem subscribe_channels_from_quote_only_witness :
    lookup_quotes demo_config_two.quoted_currency demo_config_two.trading_pairs =
      some ["USD", "USD"]
    ∧ subscribes_only_from_quotes demo_config_two.subscription_template ["USD", "USD"]
        (listen_attempt demo_config_two (SessionScript.run [])).sent = true :=
  ⟨by decide,
    subscribe_channels_from_quote_only demo_config_two ["USD", "USD"] [] (by decide)⟩

/-- C5: over a whole run in which no iteration is cancelled (a
cancellation only truncates the run) and the trading pairs resolve, the
output queue is exactly the concatenation, session by session and in
receive order, of the frames classified as updates: no reordering, and
each decoded frame is forwarded at most once (exactly once when it is
classified as an update, never otherwise), including across reconnects. -/
theorem output_queue_order_and_once (cfg : ListenConfig) (scripts : List SessionScript)
    (hq : (lookup_quotes cfg.quoted_currency cfg.trading_pairs).isSome = true)
    (hnc : ∀ s ∈ scripts, (listen_attempt cfg s).cancelled = false) :
    (output_queue (listen_for_user_stream cfg scripts)).map (fun e => e.payload) =
      scripts_updates scripts := by
  induction scripts with
  | nil => rfl
  | cons s rest ih =>
    have hc : (listen_attempt cfg s).cancelled = false := hnc s (List.mem_cons_self s rest)
    have hrest : ∀ x ∈ rest, (listen_attempt cfg x).cancelled = false :=
      fun x hx => hnc x (List.mem_cons_of_mem s hx)
    have hqueued : (listen_attempt cfg s).queued.map (fun e => e.payload) =
        script_updates s := by
      cases s with
      | connectFail => rfl
      | connectCancelled => rfl
      | run steps =>
        obtain ⟨qcs, hqq⟩ := Option.isSome_iff_exists.mp hq
        rcases hrs : run_session steps with ⟨q, e⟩
        have hqd : (listen_attempt cfg (SessionScript.run steps)).queued = q := by
          cases e with
          | ended => rw [listen_attempt_run_ended cfg qcs hqq steps q hrs]
          | raised pe => rw [listen_attempt_run_raised cfg qcs hqq steps q pe hrs]
          | cancelled => rw [listen_attempt_run_cancelled cfg qcs hqq steps q hrs]
        have hpl := run_session_payloads steps
        rw [hrs] at hpl
        rw [hqd, script_updates]
        exact hpl
    rw [listen_stream_cons cfg s rest hc]
    simp only [output_queue, List.map_append, scripts_updates]
    rw [hqueued, ih hrest]

/-- Witness for C5: two sessions, each delivering one update before its
stream ends, forwarded in order with nothing duplicated. -/
theorem output_queue_order_and_once_witness :
    (lookup_quotes demo_config.quoted_currency demo_config.trading_pairs).isSome = true
    ∧ (∀ s ∈ [SessionScript.run
          [RecvStep.frame ⟨some "updated", some "user_account_usd", "a"⟩,
            RecvStep.idleNoPong],
        SessionScript.run
          [RecvStep.frame ⟨some "updated", some "user_account_usd", "b"⟩,
            RecvStep.closed]],
        (listen_attempt demo_config s).cancelled = false)
    ∧ (output_queue (listen_for_user_stream demo_config
        [SessionScript.run
          [RecvStep.frame ⟨some "updated", some "user_account_usd", "a"⟩,
            RecvStep.idleNoPong],
          SessionScript.run
            [RecvStep.frame ⟨some "updated", some "user_account_usd", "b"⟩,
              RecvStep.closed]])).map (fun e => e.payload) =
        scripts_updates
          [SessionScript.run
            [RecvStep.frame ⟨some "updated", some "user_account_usd", "a"⟩,
              RecvStep.idleNoPong],
            SessionScript.run
              [RecvStep.frame ⟨some "updated", some "user_account_usd", "b"⟩,
                RecvStep.closed]] :=
  ⟨by decide, by decide,
    output_queue_order_and_once demo_config
      [SessionScript.run
        [RecvStep.frame ⟨some "updated", some "user_account_usd", "a"⟩,
          RecvStep.idleNoPong],
        SessionScript.run
          [RecvStep.frame ⟨some "updated", some "user_account_usd", "b"⟩,
            RecvStep.closed]] (by decide) (by decide)⟩
